import Mathlib

/-!
Shallow embedding of `src/PDF_to_comments.py` (classes `CommentType`,
`PDFComment`, `PDFCommentExtractor`, `MarkdownGenerator`) and proofs about it.

The document source (PyMuPDF) is abstracted: results of fallible queries
(`annot.rect`, `page.get_text(...)`) appear as explicit `Except`-valued inputs,
mirroring which call sites in the Python code may raise.  Strings are Lean
`String`s; the Python string primitives used by the code (`strip`, `upper`,
`split`/`join`, `startswith`, `in`, `find`, `replace`, slicing) are modelled
below on the underlying `List Char`, with Python's ASCII whitespace set.
-/

set_option maxRecDepth 8192

namespace PDFToComments

/-- Python whitespace characters recognised by `str.strip` / `str.split`
(ASCII subset). -/
def isPyWS (c : Char) : Bool :=
  c = ' ' || c = '\t' || c = '\n' || c = '\r' || c = '\x0b' || c = '\x0c'

/-- Drop leading whitespace. -/
def dropLeadWS (l : List Char) : List Char := l.dropWhile isPyWS

/-- Python `str.strip()` on the character list: drop leading and trailing
whitespace. -/
def pyStripL (l : List Char) : List Char :=
  ((dropLeadWS l).reverse.dropWhile isPyWS).reverse

/-- Python `str.strip()`. -/
def pyStrip (s : String) : String := ⟨pyStripL s.data⟩

/-- Python `str.upper()` (ASCII model: per-character upper-casing). -/
def pyUpper (s : String) : String := ⟨s.data.map Char.toUpper⟩

/-- Python `s.startswith(p)`. -/
def pyStartswith (s p : String) : Bool := p.data.isPrefixOf s.data

/-- Accumulator-style worker for Python `str.split()` (split on whitespace
runs, dropping empty pieces).  `acc` holds the current word reversed. -/
def pyWordsAux : List Char → List Char → List (List Char)
  | [], acc => if acc.isEmpty then [] else [acc.reverse]
  | c :: cs, acc =>
    if isPyWS c then
      if acc.isEmpty then pyWordsAux cs [] else acc.reverse :: pyWordsAux cs []
    else pyWordsAux cs (c :: acc)

/-- Python `str.split()` (no argument: split on whitespace runs). -/
def pyWordsL (l : List Char) : List (List Char) := pyWordsAux l []

/-- Python `" ".join(s.split())`: collapse all whitespace runs to single
spaces (also strips the ends). -/
def collapseWS (s : String) : String :=
  ⟨List.intercalate [' '] (pyWordsL s.data)⟩

/-- First index at which `pat` occurs in `l` (Python `str.find`, restricted to
the found case; `none` when absent). -/
def firstIdxL (pat : List Char) : List Char → Option Nat
  | [] => if pat.isEmpty then some 0 else none
  | c :: cs =>
    if pat.isPrefixOf (c :: cs) then some 0
    else (firstIdxL pat cs).map (· + 1)

/-- Python `pat in s` (substring containment). -/
def containsSubL (pat l : List Char) : Bool := (firstIdxL pat l).isSome

/-- Python `pat in s` on `String`s. -/
def containsSub (pat s : String) : Bool := containsSubL pat.data s.data

/-- Python `s.replace(pat, rep)` for a non-empty `pat`: replace every
non-overlapping occurrence, scanning left to right. -/
def replaceAllPos (pat rep : List Char) : List Char → List Char
  | [] => []
  | c :: cs =>
    if h : pat.isEmpty then c :: cs
    else if pat.isPrefixOf (c :: cs) then
      rep ++ replaceAllPos pat rep ((c :: cs).drop pat.length)
    else c :: replaceAllPos pat rep cs
  termination_by l => l.length
  decreasing_by
    · have hp : 0 < pat.length := by
        cases pat with
        | nil => simp at h
        | cons a as => simp
      simp only [List.length_drop, List.length_cons]
      omega
    · simp

/-- Python `s.replace(pat, rep)`, including Python's semantics for the empty
pattern (`rep` inserted around every character). -/
def replaceAllL (pat rep l : List Char) : List Char :=
  if pat.isEmpty then rep ++ l.flatMap (fun c => [c] ++ rep)
  else replaceAllPos pat rep l

/-- Python `s.replace(pat, rep)` on `String`s. -/
def pyReplace (s pat rep : String) : String := ⟨replaceAllL pat.data rep.data s.data⟩

/-- Python slice `s[a:b]` (for `0 ≤ a ≤ b`). -/
def pySliceL (a b : Nat) (l : List Char) : List Char := (l.drop a).take (b - a)

/-- Python `range(a, b)` over integers. -/
def intRange (a b : Int) : List Int :=
  (List.range (b - a).toNat).map (fun (i : Nat) => a + (i : Int))

/-! ## `CommentType` constants (source lines 23–29) -/

namespace CommentType

def QUESTION : String := "Q"
def NOTE : String := "Note"
def CORRECTION : String := "Correction"
def ERROR : String := "Error"
def TYPO : String := "Typo"

end CommentType

/-! ## `PDFCommentExtractor.classify_comment` (source lines 184–200) -/

/-- `classify_comment`: classify a comment based on its starting text. -/
def classify_comment (comment_text : String) : String :=
  let comment_text_upper := pyUpper (pyStrip comment_text)
  if pyStartswith comment_text_upper "Q " || pyStartswith comment_text_upper "Q-" then
    CommentType.QUESTION
  else if pyStartswith comment_text_upper (pyUpper CommentType.CORRECTION) then
    CommentType.CORRECTION
  else if pyStartswith comment_text_upper (pyUpper CommentType.ERROR) then
    CommentType.ERROR
  else if pyStartswith comment_text_upper (pyUpper CommentType.TYPO) then
    CommentType.TYPO
  else if pyStartswith comment_text_upper (pyUpper CommentType.NOTE) then
    CommentType.NOTE
  else
    CommentType.NOTE

/-- Restatement of claim C1's words, used only to compare against
`classify_comment`: trim and upper-case the text, then check prefixes in the
exact precedence order `"Q "`/`"Q-"` → Question, `"CORRECTION"` → Correction,
`"ERROR"` → Error, `"TYPO"` → Typo, `"NOTE"` → Note, else Note. -/
def classifySpecC1 (raw : String) : String :=
  let u := pyUpper (pyStrip raw)
  if pyStartswith u "Q " || pyStartswith u "Q-" then "Q"
  else if pyStartswith u "CORRECTION" then "Correction"
  else if pyStartswith u "ERROR" then "Error"
  else if pyStartswith u "TYPO" then "Typo"
  else if pyStartswith u "NOTE" then "Note"
  else "Note"

/-! ## `PDFComment` (source lines 32–64) -/

/-- A single comment extracted from the PDF (`PDFComment.__init__`). -/
structure PDFComment where
  page_num : Nat
  line_num : Nat
  comment_text : String
  highlighted_text : String
  context_text : String
  comment_type : String
deriving DecidableEq, Repr

namespace PDFComment

/-- The `- **Page p, Line l**` / `  - Comment:` header lines of
`to_markdown` (source lines 45–46). -/
def headerPart (c : PDFComment) : String :=
  "- **Page " ++ toString c.page_num ++ ", Line " ++ toString c.line_num ++ "**\n"
    ++ "  - Comment: " ++ c.comment_text ++ "\n"

/-- Whether the `Highlighted:` branch is taken: Python
`self.highlighted_text and len(self.highlighted_text.strip()) > 0`
(source line 49). -/
def hlNontrivial (c : PDFComment) : Bool :=
  !(c.highlighted_text == "") && (pyStrip c.highlighted_text).length > 0

/-- The `  - Highlighted: ...` portion of `to_markdown` (source lines 49–56):
emitted in both sub-branches of the highlighted case, absent otherwise. -/
def highlightedPart (c : PDFComment) : String :=
  if hlNontrivial c then "  - Highlighted: " ++ pyStrip c.highlighted_text ++ "\n"
  else ""

/-- The `  - Context: ...` portion of `to_markdown` (source lines 52–62):
in the highlighted branch it appears only when the trimmed highlighted text
has at most 150 characters and the context is materially longer
(source line 58); with no usable highlighted text it appears whenever
`context_text` is non-empty (source lines 60–62). -/
def contextPart (c : PDFComment) : String :=
  if hlNontrivial c then
    let highlighted_clean := pyStrip c.highlighted_text
    if highlighted_clean.length > 150 then ""
    else if !(c.context_text == "")
        && (pyStrip c.context_text).length > highlighted_clean.length + 20 then
      "  - Context: " ++ c.context_text ++ "\n"
    else ""
  else if !(c.context_text == "") then "  - Context: " ++ c.context_text ++ "\n"
  else ""

/-- `PDFComment.to_markdown` (source lines 43–64).  The source appends the
pieces branch by branch; in every branch the output is the header, then the
`Highlighted:` line when its branch is taken, then the `Context:` line when
its condition holds, so the concatenation below is the same string. -/
def to_markdown (c : PDFComment) : String :=
  headerPart c ++ highlightedPart c ++ contextPart c

end PDFComment

/-! ## Chapter map (`_build_chapter_map`, source lines 149–182)

The Python `chapter_map` dict is modelled as an insertion-ordered association
list with `Int` keys (PyMuPDF TOC page numbers are integers). -/

/-- One TOC entry `[level, title, page_num]` as returned by `doc.get_toc()`. -/
structure TocEntry where
  level : Int
  title : String
  page_num : Int
deriving Repr, DecidableEq

/-- Insertion-ordered dictionary from page number to chapter title. -/
abbrev ChapterMap := List (Int × String)

/-- Dictionary lookup `m.get(k)`. -/
def lookupA (m : ChapterMap) (k : Int) : Option String :=
  (m.find? (fun e => e.1 == k)).map (·.2)

/-- `if p not in self.chapter_map: self.chapter_map[p] = v` (source
lines 166–167): a fresh key is appended in insertion order. -/
def insertIfAbsent (m : ChapterMap) (k : Int) (v : String) : ChapterMap :=
  if (lookupA m k).isSome then m else m ++ [(k, v)]

/-- The body of the TOC loop (source lines 161–167): a level ≤ 2 entry
updates `current_chapter`, then pages `range(page_num, len(doc) + 1)` are
assigned to the current chapter only if unassigned. -/
def chapterStep (pageCount : Nat) (st : String × ChapterMap) (e : TocEntry) :
    String × ChapterMap :=
  let current_chapter := if e.level ≤ 2 then e.title else st.1
  (current_chapter,
    (intRange e.page_num ((pageCount : Int) + 1)).foldl
      (fun m p => insertIfAbsent m p current_chapter) st.2)

/-- `_build_chapter_map` (source lines 149–173), starting from
`current_chapter = "Unknown Chapter"` and an empty map. -/
def build_chapter_map (toc : List TocEntry) (pageCount : Nat) : ChapterMap :=
  (toc.foldl (chapterStep pageCount) ("Unknown Chapter", [])).2

/-- `get_chapter_for_page` (source lines 175–177). -/
def get_chapter_for_page (m : ChapterMap) (page_num : Int) : String :=
  (lookupA m page_num).getD ("Page " ++ toString page_num)

/-- `has_useful_chapters` (source lines 179–182): more than one distinct
mapped title. -/
def has_useful_chapters (m : ChapterMap) : Bool :=
  decide (((m.map (·.2)).dedup).length > 1)

/-! ## Context extraction (`get_context_text`, source lines 286–337, and
`estimate_line_number`, source lines 339–350)

The region text query `page.get_text("text", clip=context_rect)` is
abstracted as an `Except`-valued input (the whole body sits in a
`try`/`except` returning the highlighted text on failure). -/

/-- The length-limiting block of `get_context_text` (source lines 316–332).
`bold_start - 150` on `Nat` is Python's `max(0, bold_start - max_length // 2)`;
the final `if en < t.length` compares the original `end` index against the
length of the already-sliced (and possibly `"..."`-prefixed) string, exactly
as the source does on line 328. -/
def truncateContext (context_text : String) : String :=
  let max_length := 300
  if context_text.length > max_length then
    if containsSub "**" context_text then
      let bold_start := (firstIdxL "**".data context_text.data).getD 0
      let start := bold_start - max_length / 2
      let en := min context_text.length (bold_start + max_length / 2)
      let t : String := ⟨pySliceL start en context_text.data⟩
      let t := if start > 0 then "..." ++ t else t
      if en < t.length then t ++ "..." else t
    else (⟨pySliceL 0 max_length context_text.data⟩ : String) ++ "..."
  else context_text

/-- `get_context_text` (source lines 286–337).  `ctxQuery` is the result of
the full-width ±1-line region text query; any exception in the body returns
`highlighted_text if highlighted_text else ""`, which equals
`highlighted_text`. -/
def get_context_text (ctxQuery : Except String String) (highlighted_text : String) :
    String :=
  match ctxQuery with
  | .error _ => if highlighted_text ≠ "" then highlighted_text else ""
  | .ok raw =>
    let context_text := collapseWS (pyStrip raw)
    let context_text :=
      if highlighted_text ≠ "" then
        let highlighted_clean := collapseWS highlighted_text
        if containsSub highlighted_clean context_text then
          let highlighted_escaped := pyReplace highlighted_clean "*" "\\*"
          pyReplace context_text highlighted_clean
            ("**" ++ highlighted_escaped ++ "**")
        else context_text
      else context_text
    let context_text := truncateContext context_text
    if context_text ≠ "" then context_text else highlighted_text

/-- `estimate_line_number` (source lines 339–350); the rectangle's `y0` is
modelled as an integer coordinate. -/
def estimate_line_number (rect_y0 : Int) : Nat :=
  let estimated_line_height : Int := 20
  let top_margin : Int := 72
  let adjusted_y := max 0 (rect_y0 - top_margin)
  max 1 ((adjusted_y / estimated_line_height).toNat + 1)

/-! ## Annotation processing (`_process_annotation`, source lines 233–284)

An annotation is modelled with its plain attributes plus the results of the
fallible PyMuPDF calls made while processing it: `annot.rect` (inside the
outer `try`), `page.get_text("words", clip=rect)` (inside its own bare
`try`/`except`, source lines 263–268, already projected to the `w[4]` word
strings), and the context-region text query used by `get_context_text`. -/

structure Annot where
  typeCode : Int
  typeName : String
  content : String
  rectQuery : Except String Int          -- `annot.rect` (its `y0`), may raise
  wordsQuery : Except String (List String)
  ctxQuery : Except String String
deriving Repr

/-- Mutable extraction state: `self.comments`, `self.skipped_annotations`
(insertion-ordered dict of skip reasons), and the warnings printed to stderr
by the outer `except` handler. -/
structure ExtractState where
  comments : List PDFComment
  skipped : List (String × Nat)
  warnings : List String
deriving Repr, DecidableEq

def emptyState : ExtractState := ⟨[], [], []⟩

/-- `self.skipped_annotations[reason] = self.skipped_annotations.get(reason, 0) + 1`
on an insertion-ordered dict. -/
def tallyIncr (m : List (String × Nat)) (r : String) : List (String × Nat) :=
  match m with
  | [] => [(r, 1)]
  | (k, n) :: rest => if k = r then (k, n + 1) :: rest else (k, n) :: tallyIncr rest r

/-- `m.get(r, 0)`. -/
def tallyGet (m : List (String × Nat)) (r : String) : Nat :=
  match m with
  | [] => 0
  | (k, n) :: rest => if k = r then n else tallyGet rest r

/-- The five allowed annotation kind codes (source line 247). -/
def allowedTypes : List Int := [0, 1, 2, 8, 15]

/-- The warning printed by the outer `except` handler (source line 283). -/
def warnMsg (page_num : Nat) (e : String) : String :=
  "Warning: Error processing annotation on page " ++ toString page_num ++ ": " ++ e

/-- `_process_annotation` (source lines 233–284): returns the updated state
and the count (0 or 1) added to `comment_count`.  The outer `try` covers the
whole body; in this model the only operation that can raise after the kind
and content checks is the `annot.rect` access, since the words query has its
own bare `except` (treated as no words) and `get_context_text` /
`estimate_line_number` catch internally. -/
def process_annot (page_num : Nat) (annot : Annot) (st : ExtractState) :
    ExtractState × Nat :=
  if annot.typeCode ∉ allowedTypes then
    let reason := "Type " ++ toString annot.typeCode ++ " (" ++ annot.typeName
      ++ ") not in allowed types"
    ({ st with skipped := tallyIncr st.skipped reason }, 0)
  else
    let comment_text := pyStrip annot.content
    if comment_text = "" then
      let reason := "No content text (Type " ++ toString annot.typeCode ++ ": "
        ++ annot.typeName ++ ")"
      ({ st with skipped := tallyIncr st.skipped reason }, 0)
    else
      match annot.rectQuery with
      | .error e => ({ st with warnings := st.warnings ++ [warnMsg page_num e] }, 0)
      | .ok rect_y0 =>
        let highlighted_text :=
          match annot.wordsQuery with
          | .ok words => if words.isEmpty then "" else String.intercalate " " words
          | .error _ => ""
        let context_text := get_context_text annot.ctxQuery highlighted_text
        let line_num := estimate_line_number rect_y0
        let comment_type := classify_comment comment_text
        ({ st with comments := st.comments ++
            [⟨page_num, line_num, comment_text, highlighted_text, context_text,
              comment_type⟩] }, 1)

/-! ## Report generation (`MarkdownGenerator`, source lines 358–546)

Each generator is modelled as the ordered list of strings passed to
`f.write`; the report text is their concatenation. -/

/-- The sort key `lambda c: (c.page_num, c.line_num)` as a relation (source
lines 435, 478, 484, 523, 538). -/
def commentLE (a b : PDFComment) : Prop :=
  a.page_num < b.page_num ∨ (a.page_num = b.page_num ∧ a.line_num ≤ b.line_num)

instance : DecidableRel commentLE := fun a b => by
  unfold commentLE
  exact inferInstance

instance : IsTotal PDFComment commentLE :=
  ⟨fun a b => by unfold commentLE; omega⟩

instance : IsTrans PDFComment commentLE :=
  ⟨fun a b c => by unfold commentLE; omega⟩

/-- Python `sorted(..., key=lambda c: (c.page_num, c.line_num))`: a stable
ascending sort (all stable sorts of the same key agree, insertion sort
here). -/
def pySortComments (l : List PDFComment) : List PDFComment :=
  List.insertionSort commentLE l

/-- Python `sorted(keys)` over strings. -/
def pySortStrings (l : List String) : List String :=
  List.insertionSort (· ≤ ·) l

/-- The distinct group keys in dict insertion order (first occurrence wins),
as produced by building `comments_by_group` (source lines 416–429). -/
def firstDedup : List String → List String
  | [] => []
  | a :: l => a :: (firstDedup l).filter (fun b => !(b == a))

/-- Build per-key groups and emit them in `sorted(keys)` order, each group
sorted by `(page, line)` (source lines 414–438 and analogues). -/
def groupAll (key : PDFComment → String) (comments : List PDFComment) :
    List (String × List PDFComment) :=
  (pySortStrings (firstDedup (comments.map key))).map
    (fun k => (k, pySortComments (comments.filter (fun c => key c == k))))

/-- Grouping key per comment: chapter title when chapters are used, else
`"Page {p}"`. -/
def commentKey (use_chapters : Bool) (cmap : ChapterMap) (c : PDFComment) :
    String :=
  if use_chapters then get_chapter_for_page cmap (c.page_num : Int)
  else "Page " ++ toString c.page_num

/-- The `f.write(comment.to_markdown()); f.write("\n")` pairs for a group's
comments. -/
def to_markdown_writes (l : List PDFComment) : List String :=
  l.flatMap (fun c => [c.to_markdown, "\n"])

/-- A sequence of groups rendered with header prefix `hdr` (`"## "` or
`"### "`). -/
def groupedWrites (hdr : String) (groups : List (String × List PDFComment)) :
    List String :=
  groups.flatMap (fun g => (hdr ++ g.1 ++ "\n\n") :: to_markdown_writes g.2)

/-- `generate_all_comments` (source lines 400–443) as its write sequence. -/
def generate_all_comments (cmap : ChapterMap) (comments : List PDFComment) :
    List String :=
  ["# All Comments\n\n"] ++
  if comments.isEmpty then ["No comments found.\n"]
  else
    groupedWrites "## "
      (groupAll (commentKey (has_useful_chapters cmap) cmap) comments) ++
    ["\n---\n\n**Total comments: " ++ toString comments.length ++ "**\n"]

/-- `student_comment_types` (source line 449). -/
def student_comment_types : List String :=
  [CommentType.NOTE, CommentType.CORRECTION, CommentType.ERROR, CommentType.TYPO]

/-- `student_comments = [c for c in self.comments if c.comment_type in
student_comment_types]` (source line 450). -/
def studentFiltered (comments : List PDFComment) : List PDFComment :=
  comments.filter (fun c => student_comment_types.contains c.comment_type)

/-- The fixed category iteration order of the student report (source
line 462). -/
def student_order : List String :=
  [CommentType.ERROR, CommentType.CORRECTION, CommentType.TYPO, CommentType.NOTE]

/-- One iteration of the category loop (source lines 462–487): nothing when
the category is empty, otherwise the `"## {type}s"` header followed by
chapter-grouped (`"### "`) sub-sections when chapters are useful, or a flat
sorted comment list otherwise. -/
def studentTypeBlock (cmap : ChapterMap) (student_comments : List PDFComment)
    (comment_type : String) : List String :=
  let type_comments :=
    student_comments.filter (fun c => c.comment_type == comment_type)
  if type_comments.isEmpty then []
  else
    ("## " ++ comment_type ++ "s\n\n") ::
    (if has_useful_chapters cmap then
      groupedWrites "### "
        (groupAll (fun c => get_chapter_for_page cmap (c.page_num : Int))
          type_comments)
    else to_markdown_writes (pySortComments type_comments))

/-- `generate_student_corrections` (source lines 445–492) as its write
sequence. -/
def generate_student_corrections (cmap : ChapterMap) (comments : List PDFComment) :
    List String :=
  let student_comments := studentFiltered comments
  ["# Student Corrections\n\n",
   "This document contains notes, corrections, errors, and typos identified in the thesis.\n\n"] ++
  if student_comments.isEmpty then ["No student corrections found.\n"]
  else
    (student_order.flatMap (studentTypeBlock cmap student_comments)) ++
    ["\n---\n\n**Total corrections: " ++ toString student_comments.length ++ "**\n"]

/-- `generate_examiner_questions` (source lines 494–546) as its write
sequence. -/
def generate_examiner_questions (cmap : ChapterMap) (comments : List PDFComment) :
    List String :=
  let questions := comments.filter (fun c => c.comment_type == CommentType.QUESTION)
  ["# Examiner Questions\n\n",
   "Questions to ask during the viva examination.\n\n"] ++
  if questions.isEmpty then ["No questions found.\n"]
  else
    (if has_useful_chapters cmap then
      groupedWrites "## "
        (groupAll (fun c => get_chapter_for_page cmap (c.page_num : Int)) questions)
    else
      groupedWrites "## "
        (groupAll (fun c => "Page " ++ toString c.page_num) questions)) ++
    ["\n---\n\n**Total questions: " ++ toString questions.length ++ "**\n"]

/-- Whether a comment has exactly the sort key `(p, l)`; used to state
stability of the per-group sort. -/
def samePL (p l : Nat) (c : PDFComment) : Bool :=
  c.page_num == p && c.line_num == l

/-- Python `s.startswith(p)`, used to classify emitted lines by their
header level. -/
def strHasPrefix (p s : String) : Bool := p.data.isPrefixOf s.data

/-- **C1.** For every raw comment text, classification trims and upper-cases
the text and checks prefixes in this exact precedence order with first match
winning: a prefix of "Q " or "Q-" yields Question; otherwise "CORRECTION"
yields Correction; otherwise "ERROR" yields Error; otherwise "TYPO" yields
Typo; otherwise "NOTE" yields Note; and any text matching none of these yields
Note, so every comment receives a category and none is rejected. -/
theorem classify_comment_spec (raw : String) :
    classify_comment raw = classifySpecC1 raw ∧
      classify_comment raw ∈ ["Q", "Note", "Correction", "Error", "Typo"] := by
  have hC : pyUpper "Correction" = "CORRECTION" := rfl
  have hE : pyUpper "Error" = "ERROR" := rfl
  have hT : pyUpper "Typo" = "TYPO" := rfl
  have hN : pyUpper "Note" = "NOTE" := rfl
  constructor
  · simp only [classify_comment, classifySpecC1,
      CommentType.QUESTION, CommentType.CORRECTION, CommentType.ERROR,
      CommentType.TYPO, CommentType.NOTE, hC, hE, hT, hN]
  · simp only [classify_comment, CommentType.QUESTION, CommentType.CORRECTION,
      CommentType.ERROR, CommentType.TYPO, CommentType.NOTE]
    split_ifs <;> simp

/-- Helper: a trimmed string is non-empty only if the original is. -/
theorem pyStrip_ne_empty {s : String} (h : pyStrip s ≠ "") : s ≠ "" := by
  intro hs
  subst hs
  exact h rfl

/-- **C10.** For every Comment rendered to markdown, the Context line is
emitted if and only if either (a) the trimmed highlighted text is empty and
`context_text` is non-empty, or (b) the trimmed highlighted text has length at
most 150 characters and the trimmed `context_text` is more than 20 characters
longer than the trimmed highlighted text; in particular, when the trimmed
highlighted text exceeds 150 characters, the Context line is never emitted
regardless of context length. -/
theorem contextPart_emitted_iff (c : PDFComment) :
    c.contextPart ≠ "" ↔
      ((pyStrip c.highlighted_text = "" ∧ c.context_text ≠ "") ∨
        ((pyStrip c.highlighted_text).length ≤ 150 ∧
          (pyStrip c.context_text).length > (pyStrip c.highlighted_text).length + 20)) := by
  have hctx : (pyStrip c.context_text).length > 20 → c.context_text ≠ "" := by
    intro hlen heq
    rw [heq] at hlen
    simp [pyStrip, pyStripL, dropLeadWS] at hlen
  have hline : ("  - Context: " ++ c.context_text ++ "\n" : String) ≠ "" := by
    intro h
    have : ("  - Context: " ++ c.context_text ++ "\n").data = ("" : String).data := by
      rw [h]
    simp [String.data_append] at this
  unfold PDFComment.contextPart PDFComment.hlNontrivial
  by_cases hhl : pyStrip c.highlighted_text = ""
  · simp only [hhl, String.length, pyStrip]
    by_cases hempty : c.highlighted_text = "" <;>
      by_cases hc : c.context_text = "" <;>
        simp_all [String.ext_iff, pyStrip]
  · have hne : c.highlighted_text ≠ "" := pyStrip_ne_empty hhl
    have hlen0 : (pyStrip c.highlighted_text).length > 0 := by
      cases hl : (pyStrip c.highlighted_text).data with
      | nil => exact absurd (by simp [String.ext_iff, hl]) hhl
      | cons a as => simp [String.length, hl]
    simp only [hne, hlen0, hhl]
    by_cases h150 : (pyStrip c.highlighted_text).length > 150
    · simp_all
      try omega
    · by_cases hc : c.context_text = ""
      · simp_all [String.ext_iff, pyStrip]
        try omega
      · by_cases hgap :
          (pyStrip c.context_text).length > (pyStrip c.highlighted_text).length + 20 <;>
          simp_all

/-! ### Chapter-map lemmas -/

theorem lookupA_insertIfAbsent_of_some {m : ChapterMap} {k : Int} {v : String}
    (h : lookupA m k = some v) (k' : Int) (v' : String) :
    lookupA (insertIfAbsent m k' v') k = some v := by
  unfold insertIfAbsent
  split
  · exact h
  · unfold lookupA at h ⊢
    rw [List.find?_append]
    cases hf : m.find? (fun e => e.1 == k) with
    | none => rw [hf] at h; simp at h
    | some e => rw [hf] at h; simpa using h

theorem lookupA_insertIfAbsent_isSome (m : ChapterMap) (k : Int) (v : String) :
    (lookupA (insertIfAbsent m k v) k).isSome := by
  unfold insertIfAbsent
  by_cases h : (lookupA m k).isSome
  · rw [if_pos h]; exact h
  · rw [if_neg h]
    unfold lookupA
    rw [List.find?_append]
    cases hf : m.find? (fun e => e.1 == k) with
    | none => simp [List.find?]
    | some e => simp

theorem lookupA_insertIfAbsent_of_ne {m : ChapterMap} {k k' : Int} (v : String)
    (h : k' ≠ k) : lookupA (insertIfAbsent m k' v) k = lookupA m k := by
  unfold insertIfAbsent
  split
  · rfl
  · unfold lookupA
    rw [List.find?_append]
    have hb : (k' == k) = false := beq_eq_false_iff_ne.mpr h
    cases hf : m.find? (fun e => e.1 == k) with
    | none => simp [List.find?, hb]
    | some e => simp

theorem lookupA_pageFold_of_some {k : Int} {v : String} (cur : String) :
    ∀ (ps : List Int) (m : ChapterMap), lookupA m k = some v →
      lookupA (ps.foldl (fun m p => insertIfAbsent m p cur) m) k = some v
  | [], _, h => h
  | p :: ps, m, h =>
    lookupA_pageFold_of_some cur ps _ (lookupA_insertIfAbsent_of_some h p cur)

theorem lookupA_pageFold_isSome {k : Int} (cur : String) :
    ∀ (ps : List Int) (m : ChapterMap), (lookupA m k).isSome →
      (lookupA (ps.foldl (fun m p => insertIfAbsent m p cur) m) k).isSome := by
  intro ps m h
  obtain ⟨v, hv⟩ := Option.isSome_iff_exists.mp h
  rw [lookupA_pageFold_of_some cur ps m hv]
  rfl

theorem lookupA_pageFold_mem {k : Int} (cur : String) :
    ∀ (ps : List Int) (m : ChapterMap), k ∈ ps →
      (lookupA (ps.foldl (fun m p => insertIfAbsent m p cur) m) k).isSome := by
  intro ps
  induction ps with
  | nil => intro m h; simp at h
  | cons p ps ih =>
    intro m h
    rcases List.mem_cons.mp h with h | h
    · subst h
      exact lookupA_pageFold_isSome cur ps _ (lookupA_insertIfAbsent_isSome m k cur)
    · exact ih _ h

theorem lookupA_pageFold_of_not_mem {k : Int} (cur : String) :
    ∀ (ps : List Int) (m : ChapterMap), (∀ p ∈ ps, p ≠ k) →
      lookupA (ps.foldl (fun m p => insertIfAbsent m p cur) m) k = lookupA m k := by
  intro ps
  induction ps with
  | nil => intro m _; rfl
  | cons p ps ih =>
    intro m h
    rw [List.foldl_cons, ih _ (fun q hq => h q (List.mem_cons_of_mem p hq)),
      lookupA_insertIfAbsent_of_ne cur (h p (List.mem_cons_self p ps))]

theorem lookupA_chapterStep_of_some {pc : Nat} {k : Int} {v : String}
    {st : String × ChapterMap} (h : lookupA st.2 k = some v) (e : TocEntry) :
    lookupA (chapterStep pc st e).2 k = some v :=
  lookupA_pageFold_of_some _ _ _ h

theorem lookupA_tocFold_of_some {pc : Nat} {k : Int} {v : String} :
    ∀ (toc : List TocEntry) (st : String × ChapterMap), lookupA st.2 k = some v →
      lookupA (toc.foldl (chapterStep pc) st).2 k = some v
  | [], _, h => h
  | e :: toc, st, h =>
    lookupA_tocFold_of_some toc _ (lookupA_chapterStep_of_some h e)

theorem mem_intRange_of_le_lt {a k b : Int} (h₁ : a ≤ k) (h₂ : k < b) :
    k ∈ intRange a b := by
  unfold intRange
  refine List.mem_map.mpr ⟨(k - a).toNat, List.mem_range.mpr (by omega), by omega⟩

theorem le_of_mem_intRange {a b p : Int} (h : p ∈ intRange a b) : a ≤ p := by
  unfold intRange at h
  obtain ⟨i, hmem, hi⟩ := List.mem_map.mp h
  omega

/-- **C3.** When building the ChapterMap from an ordered sequence of outline
entries, once any entry (of any level) has assigned a title to a page, no
later entry changes that page's assignment; entries with level ≤ 2 update the
current chapter title before assignment, and assignment to each page from the
entry's start page through the last page happens only if the page has no
existing assignment (first-assignment-wins).  Formally: any page assignment
produced by a prefix of the outline survives every later entry, and a single
`chapterStep` never changes an existing assignment. -/
theorem build_chapter_map_first_assignment_wins
    (toc₁ toc₂ : List TocEntry) (pc : Nat) (k : Int) (v : String)
    (h : lookupA (build_chapter_map toc₁ pc) k = some v) :
    lookupA (build_chapter_map (toc₁ ++ toc₂) pc) k = some v ∧
      ∀ (st : String × ChapterMap) (e : TocEntry), lookupA st.2 k = some v →
        lookupA (chapterStep pc st e).2 k = some v := by
  constructor
  · unfold build_chapter_map at h ⊢
    rw [List.foldl_append]
    exact lookupA_tocFold_of_some toc₂ _ h
  · exact fun st e h' => lookupA_chapterStep_of_some h' e

/-- Witness for C3: with outline `[(1,"A",1)]` and a later entry
`[(1,"B",1)]` over 3 pages, page 2's title stays `"A"`. -/
theorem build_chapter_map_first_assignment_wins_witness :
    lookupA (build_chapter_map ([⟨1, "A", 1⟩] ++ [⟨1, "B", 1⟩]) 3) 2 = some "A" :=
  (build_chapter_map_first_assignment_wins [⟨1, "A", 1⟩] [⟨1, "B", 1⟩] 3 2 "A"
    (by decide)).1

theorem lookupA_tocFold_isSome {pc : Nat} {k : Int} (toc : List TocEntry)
    (st : String × ChapterMap) (h : (lookupA st.2 k).isSome) :
    (lookupA (toc.foldl (chapterStep pc) st).2 k).isSome := by
  obtain ⟨v, hv⟩ := Option.isSome_iff_exists.mp h
  rw [lookupA_tocFold_of_some toc st hv]
  rfl

theorem lookupA_tocFold_none_of_lt {pc : Nat} {k : Int} :
    ∀ (toc : List TocEntry) (st : String × ChapterMap), (∀ e ∈ toc, k < e.page_num) →
      lookupA (toc.foldl (chapterStep pc) st).2 k = lookupA st.2 k := by
  intro toc
  induction toc with
  | nil => intro st _; rfl
  | cons e toc ih =>
    intro st h
    rw [List.foldl_cons, ih _ (fun f hf => h f (List.mem_cons_of_mem e hf))]
    exact lookupA_pageFold_of_not_mem _ _ _ (fun p hp hpk =>
      absurd (le_of_mem_intRange hp) (by subst hpk; exact not_le.mpr (h e (List.mem_cons_self e toc))))

/-- **C4 (amended).** After building the ChapterMap from an outline, every
page between some entry's starting page and `page_count` has an entry in the
map; but pages that lie before every entry's starting page (in particular,
pages before the first entry when entries are ascending) get no entry at all,
and lookup on them yields the `"Page N"` fallback, not `"Unknown Chapter"`. -/
theorem build_chapter_map_coverage (toc : List TocEntry) (pc : Nat) (k : Int) :
    ((∃ e ∈ toc, e.page_num ≤ k) → k ≤ (pc : Int) →
      (lookupA (build_chapter_map toc pc) k).isSome = true) ∧
    ((∀ e ∈ toc, k < e.page_num) →
      lookupA (build_chapter_map toc pc) k = none ∧
      get_chapter_for_page (build_chapter_map toc pc) k = "Page " ++ toString k) := by
  constructor
  · rintro ⟨e, he, hle⟩ hk
    obtain ⟨l₁, l₂, rfl⟩ := List.append_of_mem he
    unfold build_chapter_map
    rw [List.foldl_append, List.foldl_cons]
    refine lookupA_tocFold_isSome l₂ _ ?_
    exact lookupA_pageFold_mem _ _ _
      (mem_intRange_of_le_lt hle (by omega))
  · intro h
    have hnone : lookupA (build_chapter_map toc pc) k = none := by
      unfold build_chapter_map
      rw [lookupA_tocFold_none_of_lt toc _ h]
      rfl
    exact ⟨hnone, by unfold get_chapter_for_page; rw [hnone]; rfl⟩

/-- Counterexample to C4 as stated: outline `[(1,"Ch1",5)]` over 10 pages
leaves pages 1–4 without any entry, and lookup on page 1 falls back to
`"Page 1"`, not to the placeholder `"Unknown Chapter"`. -/
theorem build_chapter_map_coverage_counterexample :
    lookupA (build_chapter_map [⟨1, "Ch1", 5⟩] 10) 1 = none ∧
    get_chapter_for_page (build_chapter_map [⟨1, "Ch1", 5⟩] 10) 1 = "Page 1" ∧
    get_chapter_for_page (build_chapter_map [⟨1, "Ch1", 5⟩] 10) 1 ≠ "Unknown Chapter" := by
  refine ⟨by decide, by decide, by decide⟩

/-- Witness for C4 (amended): with the same outline, page 7 (≥ the entry's
start page 5) has an entry, while page 4 has none. -/
theorem build_chapter_map_coverage_witness :
    (lookupA (build_chapter_map [⟨1, "Ch1", 5⟩] 10) 7).isSome = true ∧
    lookupA (build_chapter_map [⟨1, "Ch1", 5⟩] 10) 4 = none := by
  constructor
  · exact (build_chapter_map_coverage [⟨1, "Ch1", 5⟩] 10 7).1
      ⟨⟨1, "Ch1", 5⟩, by decide, by decide⟩ (by decide)
  · exact ((build_chapter_map_coverage [⟨1, "Ch1", 5⟩] 10 4).2 (by decide)).1

/-! ### Substring-occurrence lemmas -/

theorem firstIdxL_some_prefix {pat l : List Char} {i : Nat}
    (h : firstIdxL pat l = some i) : pat <+: l.drop i := by
  induction l generalizing i with
  | nil =>
    unfold firstIdxL at h
    split at h
    · cases h
      simp_all [List.isEmpty_iff]
    · cases h
  | cons c cs ih =>
    unfold firstIdxL at h
    split at h
    · cases h
      exact List.isPrefixOf_iff_prefix.mp (by assumption)
    · cases hf : firstIdxL pat cs with
      | none => rw [hf] at h; cases h
      | some j =>
        rw [hf] at h
        cases h
        simpa using ih hf

theorem containsSubL_of_prefix_drop {pat l : List Char} {i : Nat}
    (h : pat <+: l.drop i) : containsSubL pat l = true := by
  induction l generalizing i with
  | nil =>
    rw [List.drop_nil] at h
    rcases h with ⟨r, hr⟩
    rcases List.append_eq_nil.mp hr with ⟨hpat, -⟩
    subst hpat
    rfl
  | cons c cs ih =>
    unfold containsSubL firstIdxL
    split
    · rfl
    · rename_i hnp
      cases i with
      | zero =>
        exact absurd (List.isPrefixOf_iff_prefix.mpr h) (by simpa using hnp)
      | succ j =>
        have := ih (i := j) (by simpa using h)
        unfold containsSubL at this
        cases hf : firstIdxL pat cs with
        | none => rw [hf] at this; cases this
        | some m => simp

theorem containsSubL_iff {pat l : List Char} :
    containsSubL pat l = true ↔ ∃ i, pat <+: l.drop i := by
  constructor
  · intro h
    unfold containsSubL at h
    cases hf : firstIdxL pat l with
    | none => rw [hf] at h; cases h
    | some i => exact ⟨i, firstIdxL_some_prefix hf⟩
  · rintro ⟨i, hi⟩
    exact containsSubL_of_prefix_drop hi

theorem containsSubL_append_left {pat l : List Char} (l' : List Char)
    (h : containsSubL pat l = true) : containsSubL pat (l' ++ l) = true := by
  obtain ⟨i, hi⟩ := containsSubL_iff.mp h
  refine containsSubL_iff.mpr ⟨l'.length + i, ?_⟩
  rw [List.drop_append_eq_append_drop, List.drop_eq_nil_of_le (by omega),
    List.nil_append, show l'.length + i - l'.length = i by omega]
  exact hi

theorem containsSubL_append_right {pat l : List Char} (l' : List Char)
    (h : containsSubL pat l = true) : containsSubL pat (l ++ l') = true := by
  obtain ⟨i, hi⟩ := containsSubL_iff.mp h
  refine containsSubL_iff.mpr ⟨i, ?_⟩
  rw [List.drop_append_eq_append_drop]
  exact hi.trans (List.prefix_append _ _)

theorem prefix_take_of_prefix {pat l : List Char} {n : Nat}
    (h : pat <+: l) (hn : pat.length ≤ n) : pat <+: l.take n := by
  obtain ⟨r, hr⟩ := h
  subst hr
  rw [List.take_append_eq_append_take, List.take_of_length_le hn]
  exact List.prefix_append _ _

/-- **C5 (amended).** For a context string longer than 300 characters with a
bolded span, the truncated output has length at most 306 (window of at most
300 characters plus up to two ellipses) and still contains the opening bold
marker; the window is `[bold_start − 150, bold_start + 150)` around the start
of the span, so the closing marker survives only when the span ends within
150 characters of its start.  With no bolded span, the string is truncated to
300 characters with an ellipsis appended (length exactly 303). -/
theorem truncateContext_spec (s : String) (hlen : s.length > 300) :
    (containsSub "**" s = true →
      (truncateContext s).length ≤ 306 ∧
        containsSub "**" (truncateContext s) = true) ∧
    (containsSub "**" s = false →
      truncateContext s = (⟨pySliceL 0 300 s.data⟩ : String) ++ "..." ∧
        (truncateContext s).length = 303) := by
  have hdata : s.length = s.data.length := rfl
  constructor
  · intro hc
    have hsome : (firstIdxL "**".data s.data).isSome := hc
    obtain ⟨b, hb⟩ := Option.isSome_iff_exists.mp hsome
    have hpre : "**".data <+: s.data.drop b := firstIdxL_some_prefix hb
    have hble : b + 2 ≤ s.data.length := by
      have hl := hpre.length_le
      rw [List.length_drop] at hl
      have h2 : ("**".data).length = 2 := rfl
      omega
    have hred : truncateContext s =
        (if min s.length (b + 150) <
            (if 0 < b - 150 then
              ("..." ++ (⟨pySliceL (b - 150) (min s.length (b + 150)) s.data⟩ : String))
            else (⟨pySliceL (b - 150) (min s.length (b + 150)) s.data⟩ : String)).length
          then
            (if 0 < b - 150 then
              ("..." ++ (⟨pySliceL (b - 150) (min s.length (b + 150)) s.data⟩ : String))
            else (⟨pySliceL (b - 150) (min s.length (b + 150)) s.data⟩ : String)) ++ "..."
          else
            (if 0 < b - 150 then
              ("..." ++ (⟨pySliceL (b - 150) (min s.length (b + 150)) s.data⟩ : String))
            else (⟨pySliceL (b - 150) (min s.length (b + 150)) s.data⟩ : String))) := by
      simp only [truncateContext, hb, Option.getD_some]
      rw [if_pos hlen, if_pos hc]
    have hlent0 :
        ((⟨pySliceL (b - 150) (min s.length (b + 150)) s.data⟩ : String)).length =
          min s.length (b + 150) - (b - 150) := by
      show (pySliceL (b - 150) (min s.length (b + 150)) s.data).length = _
      unfold pySliceL
      rw [List.length_take, List.length_drop]
      omega
    have hcont0 :
        containsSub "**" (⟨pySliceL (b - 150) (min s.length (b + 150)) s.data⟩ : String)
          = true := by
      apply containsSubL_of_prefix_drop (i := b - (b - 150))
      show "**".data <+: (pySliceL (b - 150) (min s.length (b + 150)) s.data).drop _
      unfold pySliceL
      rw [List.drop_take, List.drop_drop,
        show (b - 150) + (b - (b - 150)) = b by omega]
      apply prefix_take_of_prefix hpre
      have h2 : ("**".data).length = 2 := rfl
      omega
    rw [hred]
    constructor
    · split <;> split <;>
        simp only [String.length_append, hlent0] <;>
        have h3 : ("..." : String).length = 3 := rfl <;>
        omega
    · have hL : ∀ t : String, containsSub "**" t = true →
          containsSub "**" ("..." ++ t) = true := by
        intro t ht
        show containsSubL "**".data (("..." ++ t).data) = true
        rw [String.data_append]
        exact containsSubL_append_left _ ht
      have hR : ∀ t : String, containsSub "**" t = true →
          containsSub "**" (t ++ "...") = true := by
        intro t ht
        show containsSubL "**".data ((t ++ "...").data) = true
        rw [String.data_append]
        exact containsSubL_append_right _ ht
      split <;> split
      · exact hR _ (hL _ hcont0)
      · exact hL _ hcont0
      · exact hR _ hcont0
      · exact hcont0
  · intro hc
    have hga : truncateContext s = (⟨pySliceL 0 300 s.data⟩ : String) ++ "..." := by
      simp only [truncateContext]
      rw [if_pos hlen, if_neg (by simp [hc])]
    refine ⟨hga, ?_⟩
    rw [hga, String.length_append]
    have h3 : ("..." : String).length = 3 := rfl
    have hsl : ((⟨pySliceL 0 300 s.data⟩ : String)).length = 300 := by
      show (pySliceL 0 300 s.data).length = 300
      unfold pySliceL
      rw [List.length_take, List.length_drop]
      omega
    omega

/-- Counterexample to C5 as stated: for the 302-character context
`"**" ++ 298 × 'a' ++ "**"` (a single bolded span of the whole string), the
truncated output keeps only the first 150 characters, so the closing bold
marker is cut off: the output does not contain the bolded span, and after the
opening marker no `"**"` occurs at all. -/
theorem truncateContext_counterexample :
    ("**" ++ (⟨List.replicate 298 'a'⟩ : String) ++ "**" : String).length > 300 ∧
    containsSub ("**" ++ (⟨List.replicate 298 'a'⟩ : String) ++ "**")
      ("**" ++ (⟨List.replicate 298 'a'⟩ : String) ++ "**") = true ∧
    containsSub ("**" ++ (⟨List.replicate 298 'a'⟩ : String) ++ "**")
      (truncateContext ("**" ++ (⟨List.replicate 298 'a'⟩ : String) ++ "**")) = false ∧
    containsSub "**"
      (⟨(truncateContext
          ("**" ++ (⟨List.replicate 298 'a'⟩ : String) ++ "**")).data.drop 2⟩ : String)
      = false := by
  refine ⟨by decide, by decide, by decide, by decide⟩

/-- Witness for C5 (amended), instantiated at the same 302-character
context. -/
theorem truncateContext_spec_witness :
    (truncateContext ("**" ++ (⟨List.replicate 298 'a'⟩ : String) ++ "**")).length ≤ 306 ∧
    containsSub "**"
      (truncateContext ("**" ++ (⟨List.replicate 298 'a'⟩ : String) ++ "**")) = true :=
  (truncateContext_spec ("**" ++ (⟨List.replicate 298 'a'⟩ : String) ++ "**")
    (by decide)).1 (by decide)

/-! ### Tally lemmas -/

theorem tallyGet_tallyIncr_self (m : List (String × Nat)) (r : String) :
    tallyGet (tallyIncr m r) r = tallyGet m r + 1 := by
  induction m with
  | nil => simp [tallyIncr, tallyGet]
  | cons e rest ih =>
    obtain ⟨k, n⟩ := e
    by_cases hk : k = r <;> simp [tallyIncr, tallyGet, hk, ih]

theorem tallyGet_tallyIncr_other (m : List (String × Nat)) (r r' : String)
    (h : r' ≠ r) : tallyGet (tallyIncr m r) r' = tallyGet m r' := by
  induction m with
  | nil => simp [tallyIncr, tallyGet, Ne.symm h]
  | cons e rest ih =>
    obtain ⟨k, n⟩ := e
    by_cases hk : k = r
    · subst hk
      simp [tallyIncr, tallyGet, Ne.symm h]
    · by_cases hk' : k = r'
      · subst hk'
        simp [tallyIncr, tallyGet, hk, h, ih]
      · simp [tallyIncr, tallyGet, hk, hk', ih]

/-- **C2 (amended).** For every annotation processed by the pipeline: if its
kind code is in the allow-list {0, 1, 2, 8, 15}, its trimmed content string is
non-empty, and no error is raised during its processing (the `annot.rect`
access succeeds), processing yields exactly one Comment appended to the
output sequence and no skip tally changes; if its kind code is outside the
allow-list or its trimmed content is empty, processing yields zero Comments
and increments exactly one skip-reason tally entry by one. -/
theorem process_annot_round_trip (page_num : Nat) (annot : Annot)
    (st : ExtractState) :
    (annot.typeCode ∈ allowedTypes → pyStrip annot.content ≠ "" →
      ∀ y, annot.rectQuery = .ok y →
        (∃ c, (process_annot page_num annot st).1.comments = st.comments ++ [c]) ∧
        (process_annot page_num annot st).2 = 1 ∧
        (process_annot page_num annot st).1.skipped = st.skipped) ∧
    ((annot.typeCode ∉ allowedTypes ∨ pyStrip annot.content = "") →
      (process_annot page_num annot st).1.comments = st.comments ∧
      (process_annot page_num annot st).2 = 0 ∧
      ∃ reason,
        tallyGet (process_annot page_num annot st).1.skipped reason =
          tallyGet st.skipped reason + 1 ∧
        ∀ r, r ≠ reason →
          tallyGet (process_annot page_num annot st).1.skipped r =
            tallyGet st.skipped r) := by
  constructor
  · intro hmem hcontent y hy
    unfold process_annot
    rw [if_neg (by simpa using hmem), if_neg hcontent, hy]
    exact ⟨⟨_, rfl⟩, rfl, rfl⟩
  · intro h
    unfold process_annot
    by_cases hmem : annot.typeCode ∈ allowedTypes
    · have hcontent : pyStrip annot.content = "" := by tauto
      rw [if_neg (by simpa using hmem), if_pos hcontent]
      exact ⟨rfl, rfl, _, tallyGet_tallyIncr_self _ _,
        fun r hr => tallyGet_tallyIncr_other _ _ _ hr⟩
    · rw [if_pos (by simpa using hmem)]
      exact ⟨rfl, rfl, _, tallyGet_tallyIncr_self _ _,
        fun r hr => tallyGet_tallyIncr_other _ _ _ hr⟩

/-- Counterexample to C2 as stated: an annotation of allowed kind 8 with
non-empty content whose `annot.rect` access raises produces zero Comments
(and no tally entry), not exactly one Comment. -/
theorem process_annot_round_trip_counterexample :
    (8 : Int) ∈ allowedTypes ∧
    pyStrip (Annot.content ⟨8, "Highlight", "x", .error "boom", .ok [], .ok ""⟩) ≠ "" ∧
    (process_annot 3 ⟨8, "Highlight", "x", .error "boom", .ok [], .ok ""⟩
      emptyState).1.comments = [] ∧
    (process_annot 3 ⟨8, "Highlight", "x", .error "boom", .ok [], .ok ""⟩
      emptyState).2 = 0 := by
  refine ⟨by decide, by decide, rfl, rfl⟩

/-- Witness for C2 (amended): a kind-8 annotation with content `"x"` and a
successful rect access yields one Comment; a kind-7 annotation is tallied. -/
theorem process_annot_round_trip_witness :
    (process_annot 1 ⟨8, "Highlight", "x", .ok 100, .ok ["w"], .ok "ctx"⟩
      emptyState).2 = 1 ∧
    (process_annot 1 ⟨7, "Popup", "x", .ok 100, .ok [], .ok ""⟩
      emptyState).2 = 0 := by
  constructor
  · exact ((process_annot_round_trip 1
      ⟨8, "Highlight", "x", .ok 100, .ok ["w"], .ok "ctx"⟩ emptyState).1
      (by decide) (by decide) 100 rfl).2.1
  · exact ((process_annot_round_trip 1
      ⟨7, "Popup", "x", .ok 100, .ok [], .ok ""⟩ emptyState).2
      (Or.inl (by decide))).2.1

/-- **C8 (amended).** An error raised after the kind and content checks (the
`annot.rect` access) is caught: a warning identifying the page is appended,
zero Comments are produced, the pipeline continues — but no skip-reason tally
entry is changed (the `except` handler does not touch
`skipped_annotations`).  An error inside highlighted-text extraction is
swallowed by its own bare `except` and the annotation still yields exactly
one Comment, with empty highlighted text. -/
theorem process_annot_error_handling (page_num : Nat) (annot : Annot)
    (st : ExtractState) (hmem : annot.typeCode ∈ allowedTypes)
    (hcontent : pyStrip annot.content ≠ "") :
    (∀ e, annot.rectQuery = .error e →
      (process_annot page_num annot st).1 =
        { st with warnings := st.warnings ++ [warnMsg page_num e] } ∧
      (process_annot page_num annot st).2 = 0) ∧
    (∀ y e, annot.rectQuery = .ok y → annot.wordsQuery = .error e →
      (process_annot page_num annot st).2 = 1 ∧
      ∃ c, (process_annot page_num annot st).1.comments = st.comments ++ [c] ∧
        c.highlighted_text = "") := by
  constructor
  · intro e he
    unfold process_annot
    rw [if_neg (by simpa using hmem), if_neg hcontent, he]
    exact ⟨rfl, rfl⟩
  · intro y e hy hw
    unfold process_annot
    rw [if_neg (by simpa using hmem), if_neg hcontent, hy, hw]
    exact ⟨rfl, _, rfl, rfl⟩

/-- Counterexample to C8 as stated: (i) an annotation whose highlighted-text
extraction raises still yields one Comment (it is not skipped); (ii) an
annotation whose rect access raises is skipped with a warning but nothing is
added to the skip-reason tally. -/
theorem process_annot_error_handling_counterexample :
    (process_annot 2 ⟨8, "Highlight", "q hi", .ok 100, .error "boom",
      .ok "some context"⟩ emptyState).2 = 1 ∧
    (process_annot 2 ⟨8, "Highlight", "x", .error "bad rect", .ok [],
      .ok ""⟩ emptyState).1.skipped = [] ∧
    (process_annot 2 ⟨8, "Highlight", "x", .error "bad rect", .ok [],
      .ok ""⟩ emptyState).2 = 0 := by
  refine ⟨rfl, rfl, rfl⟩

/-- Witness for C8 (amended), at a concrete failing rect access and a
concrete failing words query. -/
theorem process_annot_error_handling_witness :
    (process_annot 5 ⟨8, "Highlight", "note n", .error "attr", .ok [],
      .ok ""⟩ emptyState).2 = 0 ∧
    (process_annot 5 ⟨8, "Highlight", "note n", .ok 0, .error "attr",
      .ok ""⟩ emptyState).2 = 1 := by
  constructor
  · exact ((process_annot_error_handling 5
      ⟨8, "Highlight", "note n", .error "attr", .ok [], .ok ""⟩ emptyState
      (by decide) (by decide)).1 "attr" rfl).2
  · exact ((process_annot_error_handling 5
      ⟨8, "Highlight", "note n", .ok 0, .error "attr", .ok ""⟩ emptyState
      (by decide) (by decide)).2 0 "attr" rfl rfl).1

/-- **C9 (amended).** For a document yielding zero extracted comments, each
of the three generated reports consists of its title (plus intro line where
present) and a single "No … found." placeholder line instead of any groups;
the generator returns before writing the total line, so no total count
appears. -/
theorem empty_reports (cmap : ChapterMap) :
    generate_all_comments cmap [] = ["# All Comments\n\n", "No comments found.\n"] ∧
    generate_student_corrections cmap [] =
      ["# Student Corrections\n\n",
       "This document contains notes, corrections, errors, and typos identified in the thesis.\n\n",
       "No student corrections found.\n"] ∧
    generate_examiner_questions cmap [] =
      ["# Examiner Questions\n\n",
       "Questions to ask during the viva examination.\n\n",
       "No questions found.\n"] :=
  ⟨rfl, rfl, rfl⟩

/-- Counterexample to C9 as stated: with zero comments each report text
contains its placeholder but no "Total" count line at all (the claimed
"total count of 0" is never written). -/
theorem empty_reports_counterexample :
    containsSub "Total" ((generate_all_comments [] []).foldl (· ++ ·) "") = false ∧
    containsSub "No comments found."
      ((generate_all_comments [] []).foldl (· ++ ·) "") = true ∧
    containsSub "Total"
      ((generate_student_corrections [] []).foldl (· ++ ·) "") = false ∧
    containsSub "No student corrections found."
      ((generate_student_corrections [] []).foldl (· ++ ·) "") = true ∧
    containsSub "Total"
      ((generate_examiner_questions [] []).foldl (· ++ ·) "") = false ∧
    containsSub "No questions found."
      ((generate_examiner_questions [] []).foldl (· ++ ·) "") = true := by
  refine ⟨by decide, by decide, by decide, by decide, by decide, by decide⟩

/-! ### Sorting and stability lemmas for C6 -/

theorem filter_orderedInsert_samePL_pos {p l : Nat} {a : PDFComment}
    (ha : samePL p l a = true) (L : List PDFComment) :
    (List.orderedInsert commentLE a L).filter (samePL p l) =
      a :: L.filter (samePL p l) := by
  induction L with
  | nil => simp [List.orderedInsert, List.filter, ha]
  | cons b t ih =>
    rw [List.orderedInsert]
    by_cases hle : commentLE a b
    · rw [if_pos hle]
      simp [List.filter_cons, ha]
    · rw [if_neg hle]
      have hb : samePL p l b = false := by
        rcases Bool.eq_false_or_eq_true (samePL p l b) with h | h
        · exfalso
          apply hle
          have ha' := ha
          unfold samePL at ha' h
          simp only [Bool.and_eq_true, beq_iff_eq] at ha' h
          unfold commentLE
          omega
        · exact h
      simp [List.filter_cons, hb, ih]

theorem filter_orderedInsert_samePL_neg {p l : Nat} {a : PDFComment}
    (ha : samePL p l a = false) (L : List PDFComment) :
    (List.orderedInsert commentLE a L).filter (samePL p l) =
      L.filter (samePL p l) := by
  induction L with
  | nil => simp [List.orderedInsert, List.filter, ha]
  | cons b t ih =>
    rw [List.orderedInsert]
    by_cases hle : commentLE a b
    · rw [if_pos hle]
      simp [List.filter_cons, ha]
    · rw [if_neg hle]
      simp [List.filter_cons, ih]

theorem filter_pySortComments_samePL (p l : Nat) (L : List PDFComment) :
    (pySortComments L).filter (samePL p l) = L.filter (samePL p l) := by
  unfold pySortComments
  induction L with
  | nil => rfl
  | cons a t ih =>
    rw [List.insertionSort]
    by_cases ha : samePL p l a = true
    · rw [filter_orderedInsert_samePL_pos ha, ih]
      simp [List.filter_cons, ha]
    · have ha' : samePL p l a = false := by simpa using ha
      rw [filter_orderedInsert_samePL_neg ha', ih]
      simp [List.filter_cons, ha']

/-- The per-key grouping satisfies: keys ascending lexicographically, each
group sorted by `(page, line)`, containing exactly the comments with that
key, stably for equal `(page, line)` pairs. -/
theorem groupAll_spec (key : PDFComment → String) (comments : List PDFComment) :
    ((groupAll key comments).map Prod.fst).Sorted (· ≤ ·) ∧
    ∀ k g, (k, g) ∈ groupAll key comments →
      g.Sorted commentLE ∧
      g.Perm (comments.filter (fun c => key c == k)) ∧
      ∀ p l, g.filter (samePL p l) =
        (comments.filter (fun c => key c == k)).filter (samePL p l) := by
  constructor
  · unfold groupAll
    rw [List.map_map]
    have : (Prod.fst ∘ fun k => (k, pySortComments (comments.filter (fun c => key c == k))))
        = id := rfl
    rw [this, List.map_id]
    exact List.sorted_insertionSort _ _
  · intro k g hmem
    obtain ⟨k', hk', heq⟩ := List.mem_map.mp hmem
    obtain ⟨h1, h2⟩ := Prod.mk.injEq .. ▸ heq
    subst h1
    subst h2
    exact ⟨List.sorted_insertionSort _ _, List.perm_insertionSort _ _,
      fun p l => filter_pySortComments_samePL p l _⟩

/-- **C6.** For every set of comments rendered into a report, the groups are
emitted in ascending lexicographic order of their group-key strings (chapter
title when chapters are used, else "Page {page}"), and within each group the
comments are sorted ascending by the pair `(page_number,
estimated_line_number)`, stably for ties (equal-key comments keep their
original relative order, and each group holds exactly the comments mapping to
its key). -/
theorem generate_all_comments_ordering (cmap : ChapterMap)
    (comments : List PDFComment) :
    ((groupAll (commentKey (has_useful_chapters cmap) cmap) comments).map
      Prod.fst).Sorted (· ≤ ·) ∧
    ∀ k g,
      (k, g) ∈ groupAll (commentKey (has_useful_chapters cmap) cmap) comments →
        g.Sorted commentLE ∧
        g.Perm (comments.filter
          (fun c => commentKey (has_useful_chapters cmap) cmap c == k)) ∧
        ∀ p l, g.filter (samePL p l) =
          (comments.filter
            (fun c => commentKey (has_useful_chapters cmap) cmap c == k)).filter
            (samePL p l) :=
  groupAll_spec _ _

/-- Witness for C6: the single group `("Page 1", …)` of a one-comment report
is sorted. -/
theorem generate_all_comments_ordering_witness :
    ([⟨1, 1, "t", "", "", "Note"⟩] : List PDFComment).Sorted commentLE :=
  ((generate_all_comments_ordering [] [⟨1, 1, "t", "", "", "Note"⟩]).2
    "Page 1" [⟨1, 1, "t", "", "", "Note"⟩] (by decide)).1

/-! ### Markdown header-structure lemmas for C7 -/

theorem exists_head_append {c : Char} {s : String} (h : ∃ t, s.data = c :: t)
    (x : String) : ∃ t, (s ++ x).data = c :: t := by
  obtain ⟨t, ht⟩ := h
  exact ⟨t ++ x.data, by rw [String.data_append, ht]; rfl⟩

theorem strHasPrefix_false_head {p s : String} {a b : Char} {t : List Char}
    (hp : p.data = a :: t) (hs : ∃ r, s.data = b :: r) (hab : (a == b) = false) :
    strHasPrefix p s = false := by
  obtain ⟨r, hr⟩ := hs
  unfold strHasPrefix
  rw [hp, hr]
  simp [List.isPrefixOf, hab]

theorem headerPart_data (c : PDFComment) : ∃ t, c.headerPart.data = '-' :: t := by
  unfold PDFComment.headerPart
  exact exists_head_append (exists_head_append (exists_head_append
    (exists_head_append (exists_head_append (exists_head_append
      (exists_head_append ⟨_, rfl⟩ _) _) _) _) _) _) _

theorem to_markdown_data (c : PDFComment) :
    ∃ t, c.to_markdown.data = '-' :: t := by
  unfold PDFComment.to_markdown
  exact exists_head_append (exists_head_append (headerPart_data c) _) _

theorem strHasPrefix_append_append (p x y : String) :
    strHasPrefix p ((p ++ x) ++ y) = true := by
  unfold strHasPrefix
  rw [String.data_append, String.data_append, List.append_assoc]
  exact List.isPrefixOf_iff_prefix.mpr (List.prefix_append _ _)

theorem hash2_not_prefix_hash3 (g y : String) :
    strHasPrefix "## " (("### " ++ g) ++ y) = false := by
  unfold strHasPrefix
  rw [String.data_append, String.data_append]
  show List.isPrefixOf ['#', '#', ' '] ('#' :: '#' :: '#' :: ' ' :: (g.data ++ y.data))
    = false
  simp [List.isPrefixOf]

theorem hash3_not_prefix_hash2 (g y : String) :
    strHasPrefix "### " (("## " ++ g) ++ y) = false := by
  unfold strHasPrefix
  rw [String.data_append, String.data_append]
  show List.isPrefixOf ['#', '#', '#', ' '] ('#' :: '#' :: ' ' :: (g.data ++ y.data))
    = false
  simp [List.isPrefixOf]

theorem mem_to_markdown_writes {w : String} {l : List PDFComment}
    (h : w ∈ to_markdown_writes l) :
    (∃ c, w = PDFComment.to_markdown c) ∨ w = "\n" := by
  unfold to_markdown_writes at h
  obtain ⟨c, _, hw⟩ := List.mem_flatMap.mp h
  rcases List.mem_cons.mp hw with hw | hw
  · exact Or.inl ⟨c, hw⟩
  · simp only [List.mem_singleton] at hw
    exact Or.inr hw

theorem mem_groupedWrites {w hdr : String} {gs : List (String × List PDFComment)}
    (h : w ∈ groupedWrites hdr gs) :
    (∃ g ∈ gs, w = (hdr ++ g.1 ++ "\n\n")) ∨ ∃ g ∈ gs, w ∈ to_markdown_writes g.2 := by
  unfold groupedWrites at h
  obtain ⟨g, hg, hw⟩ := List.mem_flatMap.mp h
  rcases List.mem_cons.mp hw with hw | hw
  · exact Or.inl ⟨g, hg, hw⟩
  · exact Or.inr ⟨g, hg, hw⟩

theorem hash2_to_markdown_false (c : PDFComment) :
    strHasPrefix "## " c.to_markdown = false :=
  strHasPrefix_false_head rfl (to_markdown_data c) rfl

theorem hash3_to_markdown_false (c : PDFComment) :
    strHasPrefix "### " c.to_markdown = false :=
  strHasPrefix_false_head rfl (to_markdown_data c) rfl

theorem hash2_to_markdown_writes_false {w : String} {l : List PDFComment}
    (h : w ∈ to_markdown_writes l) : strHasPrefix "## " w = false := by
  rcases mem_to_markdown_writes h with ⟨c, rfl⟩ | rfl
  · exact hash2_to_markdown_false c
  · rfl

theorem hash3_to_markdown_writes_false {w : String} {l : List PDFComment}
    (h : w ∈ to_markdown_writes l) : strHasPrefix "### " w = false := by
  rcases mem_to_markdown_writes h with ⟨c, rfl⟩ | rfl
  · exact hash3_to_markdown_false c
  · rfl

theorem hash2_studentBlock_inner_false (cmap : ChapterMap)
    (tc : List PDFComment) {w : String}
    (h : w ∈ (if has_useful_chapters cmap then
        groupedWrites "### "
          (groupAll (fun c => get_chapter_for_page cmap (c.page_num : Int)) tc)
      else to_markdown_writes (pySortComments tc))) :
    strHasPrefix "## " w = false := by
  split at h
  · rcases mem_groupedWrites h with ⟨g, _, rfl⟩ | ⟨g, _, hw⟩
    · exact hash2_not_prefix_hash3 g.1 "\n\n"
    · exact hash2_to_markdown_writes_false hw
  · exact hash2_to_markdown_writes_false h

theorem filter_hash2_studentBlocks (cmap : ChapterMap) (sc : List PDFComment) :
    ∀ cats : List String,
      (cats.flatMap (studentTypeBlock cmap sc)).filter (strHasPrefix "## ") =
        (cats.filter (fun t =>
          !((sc.filter (fun c => c.comment_type == t)).isEmpty))).map
          (fun t => "## " ++ t ++ "s\n\n") := by
  intro cats
  induction cats with
  | nil => rfl
  | cons t cats ih =>
    rw [List.flatMap_cons, List.filter_append, ih, List.filter_cons]
    unfold studentTypeBlock
    by_cases he : (sc.filter (fun c => c.comment_type == t)).isEmpty
    · simp [he]
    · rw [if_neg he]
      have hinner :
          ((if has_useful_chapters cmap then
              groupedWrites "### "
                (groupAll (fun c => get_chapter_for_page cmap (c.page_num : Int))
                  (sc.filter (fun c => c.comment_type == t)))
            else to_markdown_writes
              (pySortComments (sc.filter (fun c => c.comment_type == t)))).filter
            (strHasPrefix "## ")) = [] :=
        List.filter_eq_nil_iff.mpr (fun w hw => by
          rw [hash2_studentBlock_inner_false cmap _ hw]
          simp)
      rw [List.filter_cons_of_pos (strHasPrefix_append_append "## " t "s\n\n"),
        hinner]
      simp [he]

theorem groupAll_ne_nil (key : PDFComment → String) {l : List PDFComment}
    (h : l.isEmpty = false) : groupAll key l ≠ [] := by
  cases l with
  | nil => simp at h
  | cons c t =>
    intro hnil
    unfold groupAll at hnil
    rw [List.map_eq_nil_iff] at hnil
    have hlen := congrArg List.length hnil
    unfold pySortStrings at hlen
    rw [List.length_insertionSort] at hlen
    simp [firstDedup, List.map_cons] at hlen

/-- **C7 (amended).** For every non-empty filtered comment set, the
student-corrections report groups by category in the fixed order Error,
Correction, Typo, Note, omitting empty categories entirely (the `"## "`
headers are exactly the non-empty categories in that order); the nested
`"### <group key>"` level under each category header exists only when the
chapter map is useful — when it is not, each category's comments are listed
flat with no inner headers at all. -/
theorem generate_student_corrections_structure (cmap : ChapterMap)
    (comments : List PDFComment) :
    ((studentFiltered comments).isEmpty = false →
      (generate_student_corrections cmap comments).filter (strHasPrefix "## ") =
        (student_order.filter (fun t =>
          !((studentFiltered comments).filter
            (fun c => c.comment_type == t)).isEmpty)).map
          (fun t => "## " ++ t ++ "s\n\n")) ∧
    (has_useful_chapters cmap = false →
      ∀ w ∈ generate_student_corrections cmap comments,
        strHasPrefix "### " w = false) ∧
    (has_useful_chapters cmap = true →
      ∀ t ∈ student_order,
        ((studentFiltered comments).filter
          (fun c => c.comment_type == t)).isEmpty = false →
        ∃ w ∈ generate_student_corrections cmap comments,
          strHasPrefix "### " w = true) := by
  refine ⟨?_, ?_, ?_⟩
  · intro hne
    simp only [generate_student_corrections, hne, Bool.false_eq_true, if_false]
    rw [List.filter_append, List.filter_append, filter_hash2_studentBlocks]
    rw [List.filter_cons_of_neg (by decide), List.filter_cons_of_neg (by decide),
      List.filter_nil]
    have htot : strHasPrefix "## "
        (("\n---\n\n**Total corrections: " ++
          toString (studentFiltered comments).length) ++ "**\n") = false :=
      strHasPrefix_false_head rfl
        (exists_head_append (exists_head_append ⟨_, rfl⟩ _) _) rfl
    rw [List.filter_cons_of_neg (by simp [htot]), List.filter_nil]
    simp
  · intro hch w hw
    simp only [generate_student_corrections] at hw
    rcases List.mem_append.mp hw with h | h
    · rcases List.mem_cons.mp h with rfl | h
      · decide
      · rcases List.mem_cons.mp h with rfl | h
        · decide
        · simp at h
    · split at h
      · have hw' := List.mem_singleton.mp h
        subst hw'
        decide
      · rcases List.mem_append.mp h with h | h
        · obtain ⟨t, _, hwt⟩ := List.mem_flatMap.mp h
          simp only [studentTypeBlock, hch, Bool.false_eq_true, if_false] at hwt
          split at hwt
          · simp at hwt
          · rcases List.mem_cons.mp hwt with rfl | hwt
            · exact hash3_not_prefix_hash2 t "s\n\n"
            · exact hash3_to_markdown_writes_false hwt
        · have hw' := List.mem_singleton.mp h
          subst hw'
          exact strHasPrefix_false_head rfl
            (exists_head_append (exists_head_append ⟨_, rfl⟩ _) _) rfl
  · intro hch t ht hne'
    have hscne : (studentFiltered comments).isEmpty = false := by
      rcases hsf : studentFiltered comments with _ | ⟨c, l⟩
      · rw [hsf] at hne'
        simp at hne'
      · rfl
    have hgne :
        groupAll (fun c => get_chapter_for_page cmap (c.page_num : Int))
          ((studentFiltered comments).filter (fun c => c.comment_type == t)) ≠ [] :=
      groupAll_ne_nil _ hne'
    rcases hg : groupAll (fun c => get_chapter_for_page cmap (c.page_num : Int))
        ((studentFiltered comments).filter (fun c => c.comment_type == t)) with
      _ | ⟨g0, gs⟩
    · exact absurd hg hgne
    · refine ⟨("### " ++ g0.1) ++ "\n\n", ?_, strHasPrefix_append_append _ _ _⟩
      simp only [generate_student_corrections, hscne, Bool.false_eq_true, if_false]
      refine List.mem_append.mpr (Or.inr (List.mem_append.mpr (Or.inl ?_)))
      refine List.mem_flatMap.mpr ⟨t, ht, ?_⟩
      unfold studentTypeBlock
      rw [if_neg (by simp [hne']), if_pos hch]
      refine List.mem_cons_of_mem _ ?_
      unfold groupedWrites
      rw [hg, List.flatMap_cons]
      exact List.mem_append_left _ (List.mem_cons_self _ _)

/-- Counterexample to C7 as stated: a single Note comment with a useless
chapter map produces a `"## Notes"` category header but no `"### "` inner
group header anywhere in the report. -/
theorem generate_student_corrections_counterexample :
    "## Notes\n\n" ∈ generate_student_corrections [] [⟨1, 1, "n", "", "", "Note"⟩] ∧
    containsSub "###"
      ((generate_student_corrections [] [⟨1, 1, "n", "", "", "Note"⟩]).foldl
        (· ++ ·) "") = false := by
  refine ⟨by decide, by decide⟩

/-- Witness for C7 (amended): the category headers of the same one-Note
report are exactly `["## Notes\n\n"]`. -/
theorem generate_student_corrections_structure_witness :
    (generate_student_corrections [] [⟨1, 1, "n", "", "", "Note"⟩]).filter
      (strHasPrefix "## ") = ["## Notes\n\n"] := by
  have h := (generate_student_corrections_structure []
    [⟨1, 1, "n", "", "", "Note"⟩]).1 (by decide)
  rw [h]
  decide

end PDFToComments
